import Mathlib

/-! Sidecar-injector admission webhook (`webhook.go`)

A shallow embedding of the decision and patch-building code of the webhook:
`mutationRequired`, `addContainer`, `updateAnnotation`, `createPatch`,
`getSidecarFromCrd`, `filterSidecar`, `mutate` and `serve`.

Library calls whose results the code only consumes are parameters of the
functions that make them: `strings.ToLower`, `json.Unmarshal`, `http.Get`,
`ioutil.ReadAll`, `defaulter.Default`, `json.Marshal`, `deserializer.Decode`
and `w.Write`.  Logging (`glog`) has no effect on any returned value and is
left out.

The patch the webhook returns is applied by its caller; `applyPatch` gives the
JSON-Patch reading (RFC 6902, with the JSON Pointer syntax of RFC 6901) of the
operations the patch builder emits, on the members of a pod they address.
-/

namespace Webhook

/-! ## Data model -/

/-- Go `map[string]string`.  The nil map is `none`; a non-nil map is the list of
its entries, read by first match on the key. -/
abbrev StringMap := Option (List (String × String))

/-- Go index expression `m[key]`: the zero value `""` when the map is nil or
the key is absent. -/
def StringMap.index (m : StringMap) (key : String) : String :=
  match m with
  | none => ""
  | some entries => (entries.lookup key).getD ""

/-- Go comma-ok index `v, ok := m[key]`: `none` stands for `ok == false`. -/
def StringMap.lookup (m : StringMap) (key : String) : Option String :=
  match m with
  | none => none
  | some entries => entries.lookup key

/-- The `corev1.Container` descriptor.  The webhook never reads a field of a
container; it only moves containers between lists, so two fields stand for
the whole record. -/
structure Container where
  Name : String
  Image : String
  deriving DecidableEq, Repr

/-- The `metav1.ObjectMeta` fields the webhook reads. -/
structure ObjectMeta where
  Name : String
  Namespace : String
  Labels : StringMap
  Annotations : StringMap
  deriving DecidableEq, Repr

/-- The `corev1.Pod` fields the webhook reads; `Containers` is `Spec.Containers`. -/
structure Pod where
  ObjectMeta : ObjectMeta
  Containers : List Container
  deriving DecidableEq, Repr

/-- The dynamic `Value interface{}` of a patch operation, restricted to the
four shapes the code stores in it. -/
inductive PatchValue where
  | container (c : Container)
  | containers (cs : List Container)
  | stringMap (entries : List (String × String))
  | string (s : String)
  deriving DecidableEq, Repr

/-- The `patchOperation` struct. -/
structure patchOperation where
  Op : String
  Path : String
  Value : PatchValue
  deriving DecidableEq, Repr

/-- One element of `SidecarTemplate.Items`: `Selector.Injector` and
`Spec.Containers`. -/
structure SidecarItem where
  Injector : String
  Containers : List Container
  deriving DecidableEq, Repr

/-- The `SidecarTemplate` struct. -/
structure SidecarTemplate where
  Items : List SidecarItem
  deriving DecidableEq, Repr

/-- The constants `metav1.NamespaceSystem` and `metav1.NamespacePublic`. -/
def ignoredNamespaces : List String := ["kube-system", "kube-public"]

def admissionWebhookAnnotationInjectKey : String :=
  "sidecar-injector-webhook.morven.me/inject"

def admissionWebhookAnnotationStatusKey : String :=
  "sidecar-injector-webhook.morven.me/status"

/-- ASCII lower-casing: what `strings.ToLower` does on ASCII text.  Used to
instantiate the `toLower` parameter on concrete inputs. -/
def asciiToLower (s : String) : String := ⟨s.data.map Char.toLower⟩

/-! ## Eligibility: `mutationRequired` -/

/-- The `for _, namespace := range ignoredList` loop of `mutationRequired`:
`true` when the loop body returns (the namespace is listed). -/
def skipNamespace (ns : String) : List String → Bool
  | [] => false
  | n :: rest => if ns = n then true else skipNamespace ns rest

/-- The function `mutationRequired`; `toLower` is `strings.ToLower`. -/
def mutationRequired (toLower : String → String) (ignoredList : List String)
    (metadata : ObjectMeta) : Bool :=
  if skipNamespace metadata.Namespace ignoredList then false
  else
    let annotations : StringMap :=
      match metadata.Annotations with
      | none => some []
      | some m => some m
    let status := annotations.index admissionWebhookAnnotationStatusKey
    if toLower status = "injected" then false
    else
      match toLower (annotations.index admissionWebhookAnnotationInjectKey) with
      | "y" | "yes" | "true" | "on" => true
      | _ => false

/-! ## Patch builder: `addContainer`, `updateAnnotation`, `createPatch` -/

/-- The `for _, add := range added` loop of `addContainer`, from the loop state
`first`, `patch`. -/
def addContainerLoop (basePath : String) :
    Bool → List patchOperation → List Container → List patchOperation
  | _, patch, [] => patch
  | first, patch, add :: rest =>
    if first then
      addContainerLoop basePath false
        (patch ++ [{ Op := "add", Path := basePath, Value := .containers [add] }]) rest
    else
      addContainerLoop basePath false
        (patch ++ [{ Op := "add", Path := basePath ++ "/-", Value := .container add }]) rest

/-- The function `addContainer`. -/
def addContainer (target added : List Container) (basePath : String) :
    List patchOperation :=
  addContainerLoop basePath (target.length == 0) [] added

/-- The `for key, value := range added` loop of `updateAnnotation`, from the loop
state `target`, `patch`; the list holds the entries still to visit. -/
def updateAnnotationLoop :
    StringMap → List patchOperation → List (String × String) → List patchOperation
  | _, patch, [] => patch
  | target, patch, (key, value) :: rest =>
    if target = none ∨ target.index key = "" then
      updateAnnotationLoop (some [])
        (patch ++ [{ Op := "add", Path := "/metadata/annotations",
                     Value := .stringMap [(key, value)] }]) rest
    else
      updateAnnotationLoop target
        (patch ++ [{ Op := "replace", Path := "/metadata/annotations/" ++ key,
                     Value := .string value }]) rest

/-- The function `updateAnnotation`.  `added` is the update map given as its
entries in the order the `range` statement visits them (Go leaves that order
unspecified; the keys of a map are distinct). -/
def updateAnnotation (target : StringMap) (added : List (String × String)) :
    List patchOperation :=
  updateAnnotationLoop target [] added

/-- The slice `patch` that `createPatch` hands to `json.Marshal`. -/
def createPatchOps (pod : Pod) (sidecars : List Container)
    (annotations : List (String × String)) : List patchOperation :=
  let patch : List patchOperation := []
  let patch := patch ++ addContainer pod.Containers sidecars "/spec/containers"
  let patch := patch ++ updateAnnotation pod.ObjectMeta.Annotations annotations
  patch

/-- The function `createPatch`.  `marshalError` is the error `json.Marshal`
returns on a value (`none` when it succeeds); the JSON document produced on
success is represented by the operation sequence it encodes. -/
def createPatch (marshalError : List patchOperation → Option String) (pod : Pod)
    (sidecars : List Container) (annotations : List (String × String)) :
    Except String (List patchOperation) :=
  let patch := createPatchOps pod sidecars annotations
  match marshalError patch with
  | some err => .error err
  | none => .ok patch

/-! ## Template store client and selector -/

/-- What `http.Get` followed by `ioutil.ReadAll(resp.Body)` can produce. -/
inductive HttpGet where
  | getFailed (err : String)
  | readFailed (err : String)
  | body (bytes : String)
  deriving DecidableEq, Repr

/-- The function `getSidecarFromCrd`; `unmarshal` is `json.Unmarshal` into a
`SidecarTemplate`. -/
def getSidecarFromCrd (get : HttpGet)
    (unmarshal : String → Except String SidecarTemplate) :
    Except String SidecarTemplate :=
  match get with
  | .getFailed err => .error err
  | .readFailed err => .error err
  | .body bytes =>
    match unmarshal bytes with
    | .error err => .error err
    | .ok st => .ok st

/-- A Go slice as far as the code tells slices apart: nil (`none`) or not, and
its elements. -/
abbrev Slice (α : Type) := Option (List α)

/-- The elements of a slice; the nil slice has none. -/
def Slice.elems {α : Type} : Slice α → List α
  | none => []
  | some l => l

/-- Go `append(s, xs...)`: appending no element returns `s` itself, so the nil
slice stays nil; otherwise the result is a non-nil slice. -/
def Slice.append {α : Type} (s : Slice α) (xs : List α) : Slice α :=
  match xs with
  | [] => s
  | x :: rest => some (s.elems ++ x :: rest)

/-- The `for i:=0;i<len(st.Items);i++` loop of `filterSidecar`, from the loop
state `res`; the list holds the items still to visit. -/
def filterSidecarLoop (metadata : ObjectMeta) :
    Slice Container → List SidecarItem → Slice Container
  | res, [] => res
  | res, item :: rest =>
    let labels : StringMap :=
      match metadata.Labels with
      | none => some []
      | some m => some m
    match labels.lookup "injector" with
    | none => filterSidecarLoop metadata res rest
    | some label =>
      if label ≠ item.Injector then filterSidecarLoop metadata res rest
      else filterSidecarLoop metadata (res.append item.Containers) rest

/-- The function `filterSidecar`: the result slice and the error (always nil). -/
def filterSidecar (metadata : ObjectMeta) (st : SidecarTemplate) :
    Slice Container × Option String :=
  (filterSidecarLoop metadata none st.Items, none)

/-! ## Admission handler: `mutate` -/

/-- The `v1beta1.AdmissionRequest` fields the handler reads: `UID` and
`Object.Raw`. -/
structure AdmissionRequest where
  UID : String
  Raw : String
  deriving DecidableEq, Repr

/-- The `metav1.Status` carried by an error response. -/
structure Status where
  Message : String
  deriving DecidableEq, Repr

/-- The `v1beta1.AdmissionResponse` struct; a missing field of a Go struct
literal has its zero value.  `Patch` is the serialized patch document (`none`:
no bytes), represented by the operations it encodes. -/
structure AdmissionResponse where
  UID : String := ""
  Allowed : Bool := false
  Result : Option Status := none
  Patch : Option (List patchOperation) := none
  PatchType : Option String := none
  deriving DecidableEq, Repr

/-- The `v1beta1.AdmissionReview` envelope: `Request` and `Response` are
pointers and may be nil. -/
structure AdmissionReview where
  Request : Option AdmissionRequest
  Response : Option AdmissionResponse := none
  deriving DecidableEq, Repr

/-- The constant `v1beta1.PatchTypeJSONPatch`. -/
def PatchTypeJSONPatch : String := "JSONPatch"

/-- The library calls `mutate` depends on, as outcomes. -/
structure Env where
  /-- Go `strings.ToLower` -/
  toLower : String → String
  /-- Outcome of `json.Unmarshal(req.Object.Raw, &pod)`: the error message or the pod -/
  unmarshalPod : String → Except String Pod
  /-- Outcome of `http.Get` on the template endpoint and of the read of its body -/
  httpGet : HttpGet
  /-- Outcome of `json.Unmarshal(body, st)` -/
  unmarshalTemplate : String → Except String SidecarTemplate
  /-- Effect of `defaulter.Default` on a pod wrapping the sidecars: it rewrites
  the elements of the slice in place -/
  defaulter : List Container → List Container
  /-- An in-place rewrite leaves the length of the slice of the caller as it is -/
  defaulter_length : ∀ cs, (defaulter cs).length = cs.length
  /-- Error of `json.Marshal(patch)`, `none` on success -/
  marshalError : List patchOperation → Option String

/-- The repository functions `mutate` calls, for the record of a run. -/
inductive Call where
  | mutationRequired
  | getSidecarFromCrd
  | filterSidecar
  | createPatch
  deriving DecidableEq, Repr

/-- One run of `mutate`: the repository functions it called, in order, and what
it returned (`none`: the run ended in a nil-pointer dereference). -/
structure MutateRun where
  calls : List Call
  response : Option AdmissionResponse
  deriving DecidableEq, Repr

/-- The method `WebhookServer.mutate`. -/
def mutate (env : Env) (ar : AdmissionReview) : MutateRun :=
  match ar.Request with
  | none => { calls := [], response := none }
  | some req =>
    match env.unmarshalPod req.Raw with
    | .error err =>
      { calls := [], response := some { Result := some { Message := err } } }
    | .ok pod =>
      if !mutationRequired env.toLower ignoredNamespaces pod.ObjectMeta then
        { calls := [.mutationRequired], response := some { Allowed := true } }
      else
        match getSidecarFromCrd env.httpGet env.unmarshalTemplate with
        | .error _ =>
          { calls := [.mutationRequired, .getSidecarFromCrd],
            response := some { Allowed := true } }
        | .ok st =>
          match filterSidecar pod.ObjectMeta st with
          | (sidecars, err) =>
            if err ≠ none ∨ sidecars = none then
              { calls := [.mutationRequired, .getSidecarFromCrd, .filterSidecar],
                response := some { Allowed := true } }
            else
              let sidecars := env.defaulter sidecars.elems
              let annotations := [(admissionWebhookAnnotationStatusKey, "injected")]
              match createPatch env.marshalError pod sidecars annotations with
              | .error err =>
                { calls := [.mutationRequired, .getSidecarFromCrd, .filterSidecar,
                    .createPatch],
                  response := some { Result := some { Message := err } } }
              | .ok patchBytes =>
                { calls := [.mutationRequired, .getSidecarFromCrd, .filterSidecar,
                    .createPatch],
                  response := some { Allowed := true, Patch := some patchBytes,
                                     PatchType := some PatchTypeJSONPatch } }

/-- A concrete environment for evaluating `mutate`: ASCII lower-casing, a pod
decoder and a template source given as outcomes, no defaulting, and a
`json.Marshal` that succeeds. -/
def Env.simple (pod : Except String Pod) (get : HttpGet)
    (template : Except String SidecarTemplate) : Env where
  toLower := asciiToLower
  unmarshalPod := fun _ => pod
  httpGet := get
  unmarshalTemplate := fun _ => template
  defaulter := id
  defaulter_length := fun _ => rfl
  marshalError := fun _ => none

/-- The pod of the end-to-end scenarios: namespace `default`, label
`injector=logging`, inject annotation `true`, no container. -/
def scenarioPod : Pod :=
  { ObjectMeta := { Name := "p", Namespace := "default",
                    Labels := some [("injector", "logging")],
                    Annotations := some [(admissionWebhookAnnotationInjectKey, "true")] },
    Containers := [] }

/-- The template collection of the end-to-end scenarios: one entry selecting
`logging`, with two containers. -/
def scenarioTemplate : SidecarTemplate :=
  { Items := [{ Injector := "logging",
                Containers := [⟨"a", "img-a"⟩, ⟨"b", "img-b"⟩] }] }

/-- An admission review carrying a request. -/
def scenarioReview : AdmissionReview :=
  { Request := some { UID := "uid-1", Raw := "pod-json" } }

/-! ## HTTP handler: `serve` -/

/-- The body of the inbound HTTP request as `serve` finds it: `r.Body` nil, a
body `ioutil.ReadAll` fails on, or the bytes read. -/
inductive RequestBody where
  | absent
  | unreadable (err : String)
  | data (bytes : String)
  deriving DecidableEq, Repr

/-- The parts of `http.Request` that `serve` reads; `ContentType` is
`r.Header.Get("Content-Type")`. -/
structure HttpRequest where
  Body : RequestBody
  ContentType : String
  deriving DecidableEq, Repr

/-- The library calls `serve` depends on, as outcomes, next to those of
`mutate`. -/
structure ServeEnv where
  /-- Outcomes of the calls made by `mutate` -/
  mutateEnv : Env
  /-- Outcome of `deserializer.Decode(body, nil, &ar)`: the value of `ar` after the
  call and the error, `none` on success -/
  decode : String → AdmissionReview × Option String
  /-- Error of `json.Marshal(admissionReview)`, `none` on success -/
  marshalReviewError : AdmissionReview → Option String
  /-- Error of `w.Write(resp)`, `none` on success -/
  writeError : Option String

/-- One call on the `http.ResponseWriter`: `http.Error(w, message, code)`, or
`w.Write(resp)` where `resp` is the encoded review (`none`: the nil bytes left by
a failed `json.Marshal`). -/
inductive WriterCall where
  | httpError (message : String) (code : Nat)
  | write (resp : Option AdmissionReview)
  deriving DecidableEq, Repr

/-- Lines 282 to 301 of `serve`: the `admissionReview` handed to `json.Marshal`.
The result is `none` when `mutate` ends in a fault.  Both branches assign the
address of a struct to `admissionResponse`, so the test `admissionResponse != nil`
passes whenever it is reached. -/
def serveReview (env : ServeEnv) (body : String) : Option AdmissionReview :=
  match env.decode body with
  | (ar, decodeErr) =>
    let admissionResponse : Option AdmissionResponse :=
      match decodeErr with
      | some err => some { Result := some { Message := err } }
      | none => (mutate env.mutateEnv ar).response
    match admissionResponse with
    | none => none
    | some response =>
      match ar.Request with
      | some req =>
        some { Request := none, Response := some { response with UID := req.UID } }
      | none => some { Request := none, Response := some response }

/-- The method `WebhookServer.serve`: the calls it makes on the response writer,
or `none` when the handler ends in a fault. -/
def serve (env : ServeEnv) (r : HttpRequest) : Option (List WriterCall) :=
  let body : String :=
    match r.Body with
    | .data bytes => bytes
    | _ => ""
  if body.length = 0 then some [.httpError "empty body" 400]
  else if r.ContentType ≠ "application/json" then
    some [.httpError "invalid Content-Type, expect `application/json`" 415]
  else
    match serveReview env body with
    | none => none
    | some admissionReview =>
      let encoded : List WriterCall :=
        match env.marshalReviewError admissionReview with
        | some err =>
          [.httpError ("could not encode response: " ++ err) 500, .write none]
        | none => [.write (some admissionReview)]
      match env.writeError with
      | some err =>
        some (encoded ++ [.httpError ("could not write response: " ++ err) 500])
      | none => some encoded

/-- A concrete environment for evaluating `serve`: the body decodes to the given
review, and encoding and writing succeed. -/
def ServeEnv.simple (env : Env) (ar : AdmissionReview) : ServeEnv where
  mutateEnv := env
  decode := fun _ => (ar, none)
  marshalReviewError := fun _ => none
  writeError := none

/-! ## JSON-Patch application (RFC 6902) on a pod -/

/-- RFC 6901 unescaping of one reference token: `~1` stands for a slash and `~0`
for a tilde. -/
def unescapeToken : List Char → List Char
  | [] => []
  | '~' :: '1' :: rest => '/' :: unescapeToken rest
  | '~' :: '0' :: rest => '~' :: unescapeToken rest
  | c :: rest => c :: unescapeToken rest

/-- Split at every slash, as `strings.Split(s, "/")`. -/
def splitSlash : List Char → List (List Char)
  | [] => [[]]
  | c :: rest =>
    if c = '/' then [] :: splitSlash rest
    else
      match splitSlash rest with
      | [] => [[c]]
      | token :: tokens => (c :: token) :: tokens

/-- The reference tokens of a JSON Pointer (RFC 6901): the empty string has none;
otherwise the pointer starts with a slash and every slash starts a token. -/
def parsePointer (path : String) : Option (List String) :=
  match path.data with
  | [] => some []
  | '/' :: rest => some ((splitSlash rest).map (fun token => ⟨unescapeToken token⟩))
  | _ => none

/-- Set the value of a key in the entries of a map, keeping the other entries. -/
def setEntry (key value : String) : List (String × String) → List (String × String)
  | [] => [(key, value)]
  | (k, v) :: rest =>
    if k = key then (key, value) :: rest else (k, v) :: setEntry key value rest

/-- One JSON-Patch operation (RFC 6902) applied to the JSON document of a pod,
for the locations the patch builder addresses; `none` is an operation that does
not apply.
* `add` at `/spec/containers` sets the member to the given array;
* `add` at that path followed by slash-dash appends the value to the array;
* `add` at `/metadata/annotations` sets the member to the given object, replacing
  the object that is there;
* `add` at a member of `annotations` needs the `annotations` object and sets the
  member; `replace` needs the member itself to exist;
* the values of `annotations` are strings, so a pointer with further tokens below
  a member of `annotations` addresses nothing and the operation does not apply.
Operations of any other form are not part of this model and yield `none`. -/
def applyOperation (pod : Pod) (op : patchOperation) : Option Pod :=
  match parsePointer op.Path with
  | some ["spec", "containers"] =>
    match op.Op, op.Value with
    | "add", .containers cs => some { pod with Containers := cs }
    | _, _ => none
  | some ["spec", "containers", "-"] =>
    match op.Op, op.Value with
    | "add", .container c => some { pod with Containers := pod.Containers ++ [c] }
    | _, _ => none
  | some ["metadata", "annotations"] =>
    match op.Op, op.Value with
    | "add", .stringMap entries =>
      some { pod with ObjectMeta := { pod.ObjectMeta with Annotations := some entries } }
    | _, _ => none
  | some ["metadata", "annotations", key] =>
    match op.Op, op.Value, pod.ObjectMeta.Annotations with
    | "add", .string v, some entries =>
      some { pod with ObjectMeta :=
        { pod.ObjectMeta with Annotations := some (setEntry key v entries) } }
    | "replace", .string v, some entries =>
      if (entries.lookup key).isSome then
        some { pod with ObjectMeta :=
          { pod.ObjectMeta with Annotations := some (setEntry key v entries) } }
      else none
    | _, _, _ => none
  | _ => none

/-- A patch document applied operation by operation; the first operation that
does not apply fails the whole patch. -/
def applyPatch : Pod → List patchOperation → Option Pod
  | pod, [] => some pod
  | pod, op :: rest =>
    match applyOperation pod op with
    | none => none
    | some next => applyPatch next rest

/-- The scenario pod already carrying the status annotation `failed`. -/
def scenarioPodFailedStatus : Pod :=
  { ObjectMeta := { Name := "p", Namespace := "default",
                    Labels := some [("injector", "logging")],
                    Annotations := some [(admissionWebhookAnnotationInjectKey, "true"),
                                         (admissionWebhookAnnotationStatusKey, "failed")] },
    Containers := [⟨"app", "img"⟩] }

/-- The scenario pod already carrying the status annotation `Injected`. -/
def scenarioPodInjected : Pod :=
  { ObjectMeta := { Name := "p", Namespace := "default",
                    Labels := some [("injector", "logging")],
                    Annotations := some [(admissionWebhookAnnotationInjectKey, "true"),
                                         (admissionWebhookAnnotationStatusKey, "Injected")] },
    Containers := [⟨"app", "img"⟩] }

/-! ## Theorems -/

theorem skipNamespace_eq_true_iff (ns : String) (l : List String) :
    skipNamespace ns l = true ↔ ns ∈ l := by
  induction l with
  | nil => simp [skipNamespace]
  | cons n rest ih =>
    by_cases h : ns = n
    · simp [skipNamespace, h]
    · simp [skipNamespace, h, ih]

/-- Replacing a nil annotation map by the empty map does not change what an
index expression reads. -/
theorem index_nil_default (m : StringMap) (key : String) :
    StringMap.index (match m with | none => some [] | some e => some e) key
      = StringMap.index m key := by
  cases m <;> simp [StringMap.index]

/-- The decision of `mutationRequired` as one condition. -/
theorem mutationRequired_eq_true (toLower : String → String) (ignoredList : List String)
    (metadata : ObjectMeta) :
    mutationRequired toLower ignoredList metadata = true ↔
      (metadata.Namespace ∉ ignoredList ∧
        toLower (metadata.Annotations.index admissionWebhookAnnotationStatusKey)
          ≠ "injected" ∧
        toLower (metadata.Annotations.index admissionWebhookAnnotationInjectKey)
          ∈ ["y", "yes", "true", "on"]) := by
  unfold mutationRequired
  simp only [index_nil_default]
  by_cases hns : metadata.Namespace ∈ ignoredList
  · simp [(skipNamespace_eq_true_iff _ _).2 hns, hns]
  · have hskip : skipNamespace metadata.Namespace ignoredList = false := by
      cases h : skipNamespace metadata.Namespace ignoredList
      · rfl
      · exact absurd ((skipNamespace_eq_true_iff _ _).1 h) hns
    by_cases hst :
        toLower (metadata.Annotations.index admissionWebhookAnnotationStatusKey)
          = "injected"
    · simp [hskip, hst]
    · simp only [hskip, hst, hns, if_false, Bool.false_eq_true, not_false_eq_true,
        true_and, ne_eq]
      generalize toLower (metadata.Annotations.index admissionWebhookAnnotationInjectKey) = s
      split <;> simp_all

/-- C1: `mutationRequired` returns true exactly when the namespace is not in the
ignore list, the lower-cased status annotation (absent read as `""`) is not
`"injected"`, and the lower-cased inject annotation (absent read as `""`) is one
of `"y"`, `"yes"`, `"true"`, `"on"`; a nil annotation map is included. -/
theorem mutationRequired_iff (toLower : String → String) (ignoredList : List String)
    (metadata : ObjectMeta) :
    mutationRequired toLower ignoredList metadata = true ↔
      (metadata.Namespace ∉ ignoredList ∧
        toLower (metadata.Annotations.index admissionWebhookAnnotationStatusKey)
          ≠ "injected" ∧
        toLower (metadata.Annotations.index admissionWebhookAnnotationInjectKey)
          ∈ ["y", "yes", "true", "on"]) :=
  mutationRequired_eq_true toLower ignoredList metadata

/-- C2: in a reserved ignored namespace (`kube-system`, `kube-public`)
`mutationRequired ignoredNamespaces` is false whatever the annotations are. -/
theorem mutationRequired_ignoredNamespaces (toLower : String → String)
    (metadata : ObjectMeta) (h : metadata.Namespace ∈ ignoredNamespaces) :
    mutationRequired toLower ignoredNamespaces metadata = false := by
  unfold mutationRequired
  simp [(skipNamespace_eq_true_iff _ _).2 h]

theorem mutationRequired_ignoredNamespaces_witness :
    ("kube-system" ∈ ignoredNamespaces ∧ "kube-public" ∈ ignoredNamespaces) ∧
    mutationRequired asciiToLower ignoredNamespaces
      { Name := "p", Namespace := "kube-system", Labels := none,
        Annotations := some [(admissionWebhookAnnotationInjectKey, "true")] } = false :=
  ⟨by decide, mutationRequired_ignoredNamespaces asciiToLower _ (by decide)⟩

/-- C3: when the status annotation lower-cases to `"injected"`,
`mutationRequired` is false for every ignore list and every inject annotation:
the status guard comes before the inject request. -/
theorem mutationRequired_status_injected (toLower : String → String)
    (ignoredList : List String) (metadata : ObjectMeta)
    (h : toLower (metadata.Annotations.index admissionWebhookAnnotationStatusKey)
      = "injected") :
    mutationRequired toLower ignoredList metadata = false := by
  cases hreq : mutationRequired toLower ignoredList metadata
  · rfl
  · exact absurd h ((mutationRequired_eq_true toLower ignoredList metadata).1 hreq).2.1

theorem mutationRequired_status_injected_witness :
    asciiToLower "INJECTED" = "injected" ∧
    mutationRequired asciiToLower ignoredNamespaces
      { Name := "p", Namespace := "default", Labels := none,
        Annotations := some [(admissionWebhookAnnotationInjectKey, "true"),
          (admissionWebhookAnnotationStatusKey, "Injected")] } = false :=
  ⟨by decide, mutationRequired_status_injected asciiToLower ignoredNamespaces _ (by decide)⟩

/-! ### Template selector -/

theorem Slice.elems_append {α : Type} (s : Slice α) (xs : List α) :
    (s.append xs).elems = s.elems ++ xs := by
  cases xs with
  | nil => simp [Slice.append]
  | cons x rest => simp [Slice.append, Slice.elems]

/-- Reading the label through the nil-replaced map is reading it directly. -/
theorem lookup_nil_default (m : StringMap) (key : String) :
    StringMap.lookup (match m with | none => some [] | some e => some e) key
      = StringMap.lookup m key := by
  cases m <;> simp [StringMap.lookup]

/-- The loop of `filterSidecar` appends, to the containers gathered so far, the
containers of the matching items in order. -/
theorem filterSidecarLoop_elems (metadata : ObjectMeta) (items : List SidecarItem) :
    ∀ res : Slice Container,
      (filterSidecarLoop metadata res items).elems =
        res.elems ++
          (items.filter (fun item =>
            decide (metadata.Labels.lookup "injector" = some item.Injector))).flatMap
            (fun item => item.Containers) := by
  induction items with
  | nil => intro res; simp [filterSidecarLoop]
  | cons item rest ih =>
    intro res
    unfold filterSidecarLoop
    simp only [lookup_nil_default]
    rw [List.filter_cons]
    cases hl : metadata.Labels.lookup "injector" with
    | none =>
      simp only [hl] at ih
      simp [ih]
    | some label =>
      simp only [hl] at ih
      by_cases hne : label = item.Injector
      · simp [hne, ih, Slice.elems_append, List.flatMap_cons]
      · simp [hne, ih]

/-- A slice built by the loop of `filterSidecar` is nil exactly when it has no
element, provided that held of the slice the loop started from. -/
theorem filterSidecarLoop_nil_iff (metadata : ObjectMeta) (items : List SidecarItem) :
    ∀ res : Slice Container, (res = none ↔ res.elems = []) →
      (filterSidecarLoop metadata res items = none ↔
        (filterSidecarLoop metadata res items).elems = []) := by
  induction items with
  | nil => intro res h; simpa [filterSidecarLoop] using h
  | cons item rest ih =>
    intro res h
    unfold filterSidecarLoop
    simp only [lookup_nil_default]
    cases hl : metadata.Labels.lookup "injector" with
    | none => exact ih res h
    | some label =>
      by_cases hne : label = item.Injector
      · simp only [hne, ne_eq, not_true_eq_false, if_false]
        apply ih
        cases hc : item.Containers with
        | nil => simpa [Slice.append] using h
        | cons c cs => simp [Slice.append, Slice.elems]
      · simp only [hne, ne_eq, not_false_eq_true, if_true]
        exact ih res h

/-- The slice returned by `filterSidecar` is nil exactly when it is empty. -/
theorem filterSidecar_nil_iff (metadata : ObjectMeta) (st : SidecarTemplate) :
    (filterSidecar metadata st).1 = none ↔ (filterSidecar metadata st).1.elems = [] :=
  filterSidecarLoop_nil_iff metadata st.Items none (by simp [Slice.elems])

/-- C4: `filterSidecar` returns a nil error and the containers of exactly the
template entries whose `Selector.Injector` equals the value of the label
`injector` of the object, concatenated in template order and, within an entry, in
the order of the entry; the result is empty when no entry matches and when the
object has no `injector` label. -/
theorem filterSidecar_selects (metadata : ObjectMeta) (st : SidecarTemplate) :
    (filterSidecar metadata st).2 = none ∧
    (filterSidecar metadata st).1.elems =
      (st.Items.filter (fun item =>
        decide (metadata.Labels.lookup "injector" = some item.Injector))).flatMap
        (fun item => item.Containers) ∧
    ((∀ item ∈ st.Items, metadata.Labels.lookup "injector" ≠ some item.Injector) →
      (filterSidecar metadata st).1.elems = []) ∧
    (metadata.Labels.lookup "injector" = none →
      (filterSidecar metadata st).1.elems = []) := by
  have hsel := filterSidecarLoop_elems metadata st.Items none
  have hnone : Slice.elems (none : Slice Container) = [] := rfl
  refine ⟨rfl, ?_, ?_, ?_⟩
  · simpa [filterSidecar, hnone] using hsel
  · intro hno
    have hf : st.Items.filter (fun item =>
        decide (metadata.Labels.lookup "injector" = some item.Injector)) = [] := by
      rw [List.filter_eq_nil_iff]
      intro item hmem
      simpa using hno item hmem
    simp [filterSidecar, hsel, hnone, hf]
  · intro hlab
    simp [filterSidecar, hsel, hnone, hlab]

/-- Selection on a concrete object: matching is case-sensitive, order follows the
template collection, and an empty selector does not match a missing label. -/
theorem filterSidecar_selects_example :
    filterSidecar
      { Name := "p", Namespace := "default", Labels := some [("injector", "foo")],
        Annotations := none }
      { Items := [
          { Injector := "foo", Containers := [⟨"a", "img-a"⟩, ⟨"b", "img-b"⟩] },
          { Injector := "Foo", Containers := [⟨"c", "img-c"⟩] },
          { Injector := "foo", Containers := [] },
          { Injector := "foo", Containers := [⟨"d", "img-d"⟩] }] }
      = (some [⟨"a", "img-a"⟩, ⟨"b", "img-b"⟩, ⟨"d", "img-d"⟩], none) ∧
    filterSidecar
      { Name := "p", Namespace := "default", Labels := some [("app", "x")],
        Annotations := none }
      { Items := [{ Injector := "", Containers := [⟨"a", "img-a"⟩] }] }
      = (none, none) := by
  decide

/-! ### Patch builder -/

/-- Once `first` is false the loop of `addContainer` appends one `add` at
the append path (the base path followed by slash-dash) per container. -/
theorem addContainerLoop_false (basePath : String) (added : List Container) :
    ∀ patch : List patchOperation,
      addContainerLoop basePath false patch added =
        patch ++ added.map (fun c =>
          { Op := "add", Path := basePath ++ "/-", Value := .container c }) := by
  induction added with
  | nil => intro patch; simp [addContainerLoop]
  | cons a rest ih => intro patch; simp [addContainerLoop, ih]

/-- With `first` true the loop of `addContainer` establishes the array with the
first container and appends the others. -/
theorem addContainerLoop_true (basePath : String) (a : Container)
    (rest : List Container) (patch : List patchOperation) :
    addContainerLoop basePath true patch (a :: rest) =
      patch ++ { Op := "add", Path := basePath, Value := .containers [a] } ::
        rest.map (fun c =>
          { Op := "add", Path := basePath ++ "/-", Value := .container c }) := by
  simp [addContainerLoop, addContainerLoop_false]

/-- The operations of `addContainer` on an empty target. -/
theorem addContainer_nil_target (a : Container) (rest : List Container)
    (basePath : String) :
    addContainer [] (a :: rest) basePath =
      { Op := "add", Path := basePath, Value := .containers [a] } ::
        rest.map (fun c =>
          { Op := "add", Path := basePath ++ "/-", Value := .container c }) := by
  simp [addContainer, addContainerLoop_true]

/-- The operations of `addContainer` on a non-empty target. -/
theorem addContainer_cons_target (target added : List Container) (basePath : String)
    (h : target ≠ []) :
    addContainer target added basePath =
      added.map (fun c =>
        { Op := "add", Path := basePath ++ "/-", Value := .container c }) := by
  cases target with
  | nil => exact absurd rfl h
  | cons t ts => simp [addContainer, addContainerLoop_false]

/-- Every operation of `addContainer` is an `add` at the base path or at the
append path, and there is one per added container. -/
theorem addContainer_shape (target added : List Container) (basePath : String) :
    (addContainer target added basePath).length = added.length ∧
    (∀ op ∈ addContainer target added basePath,
      op.Op = "add" ∧ (op.Path = basePath ∨ op.Path = basePath ++ "/-")) := by
  cases target with
  | cons t ts =>
    rw [addContainer_cons_target (t :: ts) added basePath (by simp)]
    refine ⟨by simp, ?_⟩
    intro op hop
    obtain ⟨c, _, rfl⟩ := List.mem_map.1 hop
    simp
  | nil =>
    cases added with
    | nil => simp [addContainer, addContainerLoop]
    | cons a rest =>
      rw [addContainer_nil_target]
      refine ⟨by simp, ?_⟩
      intro op hop
      rcases List.mem_cons.1 hop with rfl | hop
      · simp
      · obtain ⟨c, _, rfl⟩ := List.mem_map.1 hop
        simp

/-- C5: `addContainer` returns one operation per added container, all with op
`add`, the i-th carrying the i-th added container.  On an empty target the first
operation is at `basePath` with the one-element array as value and the later ones
are at the append path (`basePath` followed by slash-dash) with the single
container; on a non-empty target every operation is at the append path with the
single container. -/
theorem addContainer_ops (target added : List Container) (basePath : String) :
    (addContainer target added basePath).length = added.length ∧
    (∀ op ∈ addContainer target added basePath, op.Op = "add") ∧
    (∀ (i : Nat) (c : Container), added[i]? = some c →
      ∃ op, (addContainer target added basePath)[i]? = some op ∧
        (op.Value = .container c ∨ op.Value = .containers [c])) ∧
    (target = [] → ∀ a rest, added = a :: rest →
      addContainer target added basePath =
        { Op := "add", Path := basePath, Value := .containers [a] } ::
          rest.map (fun c =>
            { Op := "add", Path := basePath ++ "/-", Value := .container c })) ∧
    (target ≠ [] →
      addContainer target added basePath =
        added.map (fun c =>
          { Op := "add", Path := basePath ++ "/-", Value := .container c })) := by
  refine ⟨(addContainer_shape target added basePath).1,
    fun op hop => ((addContainer_shape target added basePath).2 op hop).1, ?_, ?_, ?_⟩
  · intro i c hc
    cases target with
    | cons t ts =>
      rw [addContainer_cons_target (t :: ts) added basePath (by simp)]
      simp [List.getElem?_map, hc]
    | nil =>
      cases added with
      | nil => simp at hc
      | cons a rest =>
        rw [addContainer_nil_target]
        cases i with
        | zero =>
          have : a = c := by simpa using hc
          simp [this]
        | succ j =>
          have : rest[j]? = some c := by simpa using hc
          simp [List.getElem?_map, this]
  · intro ht a rest hadd
    subst ht hadd
    exact addContainer_nil_target a rest basePath
  · exact addContainer_cons_target target added basePath

/-- The two patch-order scenarios: two containers into no container, and one
container next to an existing one. -/
theorem addContainer_ops_example :
    addContainer [] [⟨"a", "img-a"⟩, ⟨"b", "img-b"⟩] "/spec/containers" =
      [{ Op := "add", Path := "/spec/containers",
         Value := .containers [⟨"a", "img-a"⟩] },
       { Op := "add", Path := "/spec/containers/-",
         Value := .container ⟨"b", "img-b"⟩ }] ∧
    addContainer [⟨"app", "img"⟩] [⟨"a", "img-a"⟩] "/spec/containers" =
      [{ Op := "add", Path := "/spec/containers/-",
         Value := .container ⟨"a", "img-a"⟩ }] := by
  decide

/-- The operation `updateAnnotation` emits for one update entry, given the
loop state `target`. -/
theorem updateAnnotation_one (target : StringMap) (k v : String) :
    updateAnnotation target [(k, v)] =
      [if target = none ∨ target.index k = "" then
          { Op := "add", Path := "/metadata/annotations", Value := .stringMap [(k, v)] }
        else
          { Op := "replace", Path := "/metadata/annotations/" ++ k,
            Value := .string v }] := by
  unfold updateAnnotation updateAnnotationLoop
  by_cases h : target = none ∨ target.index k = ""
  · simp [h, updateAnnotationLoop]
  · simp [h, updateAnnotationLoop]

/-- The test `target == nil || target[key] == ""` holds exactly when the map has
no non-empty value at the key. -/
theorem index_eq_empty_iff (target : StringMap) (k : String) :
    (target = none ∨ target.index k = "") ↔
      ¬ ∃ w, target.lookup k = some w ∧ w ≠ "" := by
  cases target with
  | none => simp [StringMap.lookup]
  | some entries =>
    cases h : entries.lookup k with
    | none => simp [StringMap.index, StringMap.lookup, h]
    | some w => simp [StringMap.index, StringMap.lookup, h]

/-- C6: for an update map with the single entry `k: v`, `updateAnnotation`
returns exactly one operation: `add` at `/metadata/annotations` with the
single-entry map when the target is nil or has no non-empty value at `k`, and
otherwise `replace` at `/metadata/annotations/k` with `v`. -/
theorem updateAnnotation_single (target : StringMap) (k v : String) :
    ((¬ ∃ w, target.lookup k = some w ∧ w ≠ "") →
      updateAnnotation target [(k, v)] =
        [{ Op := "add", Path := "/metadata/annotations",
           Value := .stringMap [(k, v)] }]) ∧
    ((∃ w, target.lookup k = some w ∧ w ≠ "") →
      updateAnnotation target [(k, v)] =
        [{ Op := "replace", Path := "/metadata/annotations/" ++ k,
           Value := .string v }]) := by
  constructor
  · intro h
    rw [updateAnnotation_one, if_pos ((index_eq_empty_iff target k).2 h)]
  · intro h
    rw [updateAnnotation_one,
      if_neg (fun hc => (index_eq_empty_iff target k).1 hc h)]

/-- The three annotation scenarios: no annotations, only another annotation,
and the key already set. -/
theorem updateAnnotation_single_example :
    updateAnnotation none [("k", "v")] =
      [{ Op := "add", Path := "/metadata/annotations",
         Value := .stringMap [("k", "v")] }] ∧
    updateAnnotation (some [("other", "x")]) [("k", "v")] =
      [{ Op := "add", Path := "/metadata/annotations",
         Value := .stringMap [("k", "v")] }] ∧
    updateAnnotation (some [("other", "x"), ("k", "old")]) [("k", "v")] =
      [{ Op := "replace", Path := "/metadata/annotations/k",
         Value := .string "v" }] ∧
    updateAnnotation (some [("k", "")]) [("k", "v")] =
      [{ Op := "add", Path := "/metadata/annotations",
         Value := .stringMap [("k", "v")] }] := by
  decide

/-- Against the empty map every update entry gets an `add`. -/
theorem updateAnnotationLoop_empty (added : List (String × String)) :
    ∀ patch : List patchOperation,
      updateAnnotationLoop (some []) patch added =
        patch ++ added.map (fun kv =>
          { Op := "add", Path := "/metadata/annotations",
            Value := .stringMap [(kv.1, kv.2)] }) := by
  induction added with
  | nil => intro patch; simp [updateAnnotationLoop]
  | cons kv rest ih =>
    intro patch
    obtain ⟨k, v⟩ := kv
    simp [updateAnnotationLoop, StringMap.index, ih]

/-- The test of the loop reads the nil map as having the empty value at every
key. -/
theorem index_test_iff (target : StringMap) (k : String) :
    (target = none ∨ target.index k = "") ↔ target.index k = "" := by
  cases target <;> simp [StringMap.index]

/-- The loop of `updateAnnotation` emits a `replace` for every entry up to the
first whose key has no non-empty value in the target, and an `add` from that
entry on. -/
theorem updateAnnotationLoop_ops (target : StringMap) (added : List (String × String)) :
    ∀ patch : List patchOperation,
      updateAnnotationLoop target patch added =
        patch ++
          ((added.takeWhile (fun kv => decide (target.index kv.1 ≠ ""))).map (fun kv =>
              { Op := "replace", Path := "/metadata/annotations/" ++ kv.1,
                Value := .string kv.2 }) ++
            (added.dropWhile (fun kv => decide (target.index kv.1 ≠ ""))).map (fun kv =>
              { Op := "add", Path := "/metadata/annotations",
                Value := .stringMap [(kv.1, kv.2)] })) := by
  induction added with
  | nil => intro patch; simp [updateAnnotationLoop]
  | cons kv rest ih =>
    intro patch
    obtain ⟨k, v⟩ := kv
    unfold updateAnnotationLoop
    by_cases h : target.index k = ""
    · rw [if_pos (Or.inr h), updateAnnotationLoop_empty]
      simp [List.takeWhile_cons, List.dropWhile_cons, h]
    · rw [if_neg (fun hc => h ((index_test_iff target k).1 hc)), ih]
      simp [List.takeWhile_cons, List.dropWhile_cons, h]

/-- Reading a list mapped by one function up to the first element that fails a
test and by another from there on. -/
theorem getElem?_takeWhile_dropWhile {α β : Type} (P : α → Bool) (f g : α → β)
    (l : List α) :
    ∀ (i : Nat) (a : α), l[i]? = some a →
      ((l.takeWhile P).map f ++ (l.dropWhile P).map g)[i]? =
        some (if (l.take (i + 1)).all P then f a else g a) := by
  induction l with
  | nil => intro i a h; simp at h
  | cons x xs ih =>
    intro i a h
    by_cases hx : P x = true
    · cases i with
      | zero =>
        have hxa : x = a := by simpa using h
        simp [List.takeWhile_cons, List.dropWhile_cons, hx, ← hxa]
      | succ j =>
        have hj : xs[j]? = some a := by simpa using h
        simpa [List.takeWhile_cons, List.dropWhile_cons, hx] using ih j a hj
    · have hmap : ((x :: xs).map g)[i]? = some (g a) := by
        rw [List.getElem?_map, h]
        rfl
      simpa [List.takeWhile_cons, List.dropWhile_cons, hx] using hmap

/-- C7 (as stated, refuted): the target has the non-empty value `old` at `b`, the
update has the keys `a` and `b`, and `a` is visited first.  The operation emitted
for `b` is an `add` of the single-entry map, not the `replace` at the path of
`b`; visiting `b` first gives the `replace`. -/
theorem updateAnnotation_per_key_counterexample :
    StringMap.lookup (some [("b", "old")]) "b" = some "old" ∧
    updateAnnotation (some [("b", "old")]) [("a", "1"), ("b", "2")] =
      [{ Op := "add", Path := "/metadata/annotations",
         Value := .stringMap [("a", "1")] },
       { Op := "add", Path := "/metadata/annotations",
         Value := .stringMap [("b", "2")] }] ∧
    ( updateAnnotation (some [("b", "old")]) [("a", "1"), ("b", "2")])[1]? ≠
      some { Op := "replace", Path := "/metadata/annotations/b", Value := .string "2" } ∧
    updateAnnotation (some [("b", "old")]) [("b", "2"), ("a", "1")] =
      [{ Op := "replace", Path := "/metadata/annotations/b", Value := .string "2" },
       { Op := "add", Path := "/metadata/annotations",
         Value := .stringMap [("a", "1")] }] := by
  decide

/-- C7 (amended): for every target and every update, in whatever order its
entries are visited, `updateAnnotation` emits one operation per update entry, in
visit order.  The operation for key `k` is the `replace` at the path of `k` with
the new value when the target as passed in has a non-empty value at `k` and at
every update key visited before `k`; otherwise it is the `add` at
`/metadata/annotations` with the single-entry map. -/
theorem updateAnnotation_ops (target : StringMap) (added : List (String × String)) :
    ( updateAnnotation target added).length = added.length ∧
    (∀ (i : Nat) (k v : String), added[i]? = some (k, v) →
      ( updateAnnotation target added)[i]? = some
        (if (added.take (i + 1)).all (fun kv => decide (target.index kv.1 ≠ "")) then
          { Op := "replace", Path := "/metadata/annotations/" ++ k, Value := .string v }
        else
          { Op := "add", Path := "/metadata/annotations",
            Value := .stringMap [(k, v)] })) ∧
    (∀ k : String,
      target.index k ≠ "" ↔ ∃ w, target.lookup k = some w ∧ w ≠ "") ∧
    updateAnnotation target added =
      (added.takeWhile (fun kv => decide (target.index kv.1 ≠ ""))).map (fun kv =>
          { Op := "replace", Path := "/metadata/annotations/" ++ kv.1,
            Value := .string kv.2 }) ++
        (added.dropWhile (fun kv => decide (target.index kv.1 ≠ ""))).map (fun kv =>
          { Op := "add", Path := "/metadata/annotations",
            Value := .stringMap [(kv.1, kv.2)] }) := by
  have hops := updateAnnotationLoop_ops target added []
  rw [List.nil_append] at hops
  refine ⟨?_, ?_, ?_, hops⟩
  · unfold updateAnnotation
    rw [hops, List.length_append, List.length_map, List.length_map,
      ← List.length_append, List.takeWhile_append_dropWhile]
  · intro i k v h
    unfold updateAnnotation
    rw [hops]
    exact getElem?_takeWhile_dropWhile _ _ _ added i (k, v) h
  · intro k
    have h := index_eq_empty_iff target k
    rw [index_test_iff] at h
    constructor
    · intro hne
      exact Classical.not_not.1 (fun hc => hne (h.2 hc))
    · intro hex hc
      exact h.1 hc hex

/-- The amended rule on a three-key update: the keys before the first one
without a value are replaced, that key and the later ones are added. -/
theorem updateAnnotation_ops_example :
    updateAnnotation (some [("a", "x"), ("c", "z")]) [("a", "1"), ("b", "2"), ("c", "3")] =
      [{ Op := "replace", Path := "/metadata/annotations/a", Value := .string "1" },
       { Op := "add", Path := "/metadata/annotations",
         Value := .stringMap [("b", "2")] },
       { Op := "add", Path := "/metadata/annotations",
         Value := .stringMap [("c", "3")] }] := by
  decide

/-- The operation sequence of `createPatch` for the status update is the
container operations followed by one annotation operation. -/
theorem createPatchOps_status (pod : Pod) (sidecars : List Container) :
    createPatchOps pod sidecars [(admissionWebhookAnnotationStatusKey, "injected")] =
      addContainer pod.Containers sidecars "/spec/containers" ++
        [if pod.ObjectMeta.Annotations = none ∨
            pod.ObjectMeta.Annotations.index admissionWebhookAnnotationStatusKey = "" then
            { Op := "add", Path := "/metadata/annotations",
              Value := .stringMap [(admissionWebhookAnnotationStatusKey, "injected")] }
          else
            { Op := "replace",
              Path := "/metadata/annotations/" ++ admissionWebhookAnnotationStatusKey,
              Value := .string "injected" }] := by
  simp only [createPatchOps, updateAnnotation_one, List.nil_append]

/-- C8: for the one-entry status update, the operation sequence `createPatch`
serializes is `addContainer pod.Spec.Containers sidecars "/spec/containers"`
followed by the single annotation operation: `len(sidecars) + 1` operations, the
container operations first, every op `add` or `replace`, every path one of the
four forms. -/
theorem createPatch_ops (marshalError : List patchOperation → Option String)
    (pod : Pod) (sidecars : List Container) :
    createPatch marshalError pod sidecars
        [(admissionWebhookAnnotationStatusKey, "injected")] =
      (match marshalError
          (createPatchOps pod sidecars
            [(admissionWebhookAnnotationStatusKey, "injected")]) with
        | some err => .error err
        | none => .ok (createPatchOps pod sidecars
            [(admissionWebhookAnnotationStatusKey, "injected")])) ∧
    createPatchOps pod sidecars [(admissionWebhookAnnotationStatusKey, "injected")] =
      addContainer pod.Containers sidecars "/spec/containers" ++
        updateAnnotation pod.ObjectMeta.Annotations
          [(admissionWebhookAnnotationStatusKey, "injected")] ∧
    ( updateAnnotation pod.ObjectMeta.Annotations
      [(admissionWebhookAnnotationStatusKey, "injected")]).length = 1 ∧
    (createPatchOps pod sidecars
      [(admissionWebhookAnnotationStatusKey, "injected")]).length = sidecars.length + 1 ∧
    (createPatchOps pod sidecars
        [(admissionWebhookAnnotationStatusKey, "injected")]).take sidecars.length =
      addContainer pod.Containers sidecars "/spec/containers" ∧
    (createPatchOps pod sidecars
        [(admissionWebhookAnnotationStatusKey, "injected")]).drop sidecars.length =
      updateAnnotation pod.ObjectMeta.Annotations
        [(admissionWebhookAnnotationStatusKey, "injected")] ∧
    (∀ op ∈ createPatchOps pod sidecars
        [(admissionWebhookAnnotationStatusKey, "injected")],
      (op.Op = "add" ∨ op.Op = "replace") ∧
      op.Path ∈ ["/spec/containers", "/spec/containers/-", "/metadata/annotations",
        "/metadata/annotations/" ++ admissionWebhookAnnotationStatusKey]) := by
  have hlen := (addContainer_shape pod.Containers sidecars "/spec/containers").1
  have hops : createPatchOps pod sidecars
      [(admissionWebhookAnnotationStatusKey, "injected")] =
      addContainer pod.Containers sidecars "/spec/containers" ++
        updateAnnotation pod.ObjectMeta.Annotations
          [(admissionWebhookAnnotationStatusKey, "injected")] := by
    simp [createPatchOps]
  refine ⟨rfl, hops, by simp [updateAnnotation_one], ?_, ?_, ?_, ?_⟩
  · simp [hops, hlen, updateAnnotation_one]
  · rw [hops, ← hlen, List.take_left]
  · rw [hops, ← hlen, List.drop_left]
  · intro op hop
    rw [hops, List.mem_append] at hop
    rcases hop with hop | hop
    · obtain ⟨h1, h2⟩ :=
        (addContainer_shape pod.Containers sidecars "/spec/containers").2 op hop
      refine ⟨Or.inl h1, ?_⟩
      rcases h2 with h2 | h2
      · simp [h2]
      · rw [h2]; decide
    · rw [updateAnnotation_one, List.mem_singleton] at hop
      subst hop
      split <;> simp

/-- The end-to-end patch scenario: two sidecars into a pod without containers
and without the status annotation give three operations. -/
theorem createPatch_ops_example :
    createPatch (fun _ => none)
      { ObjectMeta := { Name := "p", Namespace := "default",
                        Labels := some [("injector", "logging")],
                        Annotations := some [(admissionWebhookAnnotationInjectKey, "true")] },
        Containers := [] }
      [⟨"a", "img-a"⟩, ⟨"b", "img-b"⟩]
      [(admissionWebhookAnnotationStatusKey, "injected")] =
    .ok [{ Op := "add", Path := "/spec/containers",
           Value := .containers [⟨"a", "img-a"⟩] },
         { Op := "add", Path := "/spec/containers/-",
           Value := .container ⟨"b", "img-b"⟩ },
         { Op := "add", Path := "/metadata/annotations",
           Value := .stringMap
             [("sidecar-injector-webhook.morven.me/status", "injected")] }] := by
  rfl

/-! ### Admission handler -/

/-- The response of `mutate` on a request whose object decodes, by cases on the
eligibility check, the template fetch, the selection and the serialization. -/
theorem mutate_response_decoded (env : Env) (ar : AdmissionReview)
    (req : AdmissionRequest) (pod : Pod) (hreq : ar.Request = some req)
    (hpod : env.unmarshalPod req.Raw = .ok pod) :
    (mutate env ar).response = some
      (if mutationRequired env.toLower ignoredNamespaces pod.ObjectMeta = false then
        { Allowed := true }
      else
        match getSidecarFromCrd env.httpGet env.unmarshalTemplate with
        | .error _ => { Allowed := true }
        | .ok st =>
          if (filterSidecar pod.ObjectMeta st).1.elems = [] then { Allowed := true }
          else
            match env.marshalError (createPatchOps pod
                (env.defaulter (filterSidecar pod.ObjectMeta st).1.elems)
                [(admissionWebhookAnnotationStatusKey, "injected")]) with
            | some err => { Result := some { Message := err } }
            | none =>
              { Allowed := true,
                Patch := some (createPatchOps pod
                  (env.defaulter (filterSidecar pod.ObjectMeta st).1.elems)
                  [(admissionWebhookAnnotationStatusKey, "injected")]),
                PatchType := some PatchTypeJSONPatch }) := by
  unfold mutate
  simp only [hreq, hpod]
  cases hm : mutationRequired env.toLower ignoredNamespaces pod.ObjectMeta with
  | false => simp
  | true =>
    simp only [Bool.not_true, Bool.false_eq_true, if_false]
    cases hf : getSidecarFromCrd env.httpGet env.unmarshalTemplate with
    | error e => simp
    | ok st =>
      simp only
      have hnil := filterSidecar_nil_iff pod.ObjectMeta st
      have herr : (filterSidecar pod.ObjectMeta st).2 = none := rfl
      by_cases hs : (filterSidecar pod.ObjectMeta st).1 = none
      · simp [hs, Slice.elems]
      · have hs2 : (filterSidecar pod.ObjectMeta st).1.elems ≠ [] :=
          fun h => hs (hnil.2 h)
        simp only [herr, hs, hs2, ne_eq, not_true_eq_false, or_self, if_false,
          createPatch]
        cases hme : env.marshalError (createPatchOps pod
            (env.defaulter (filterSidecar pod.ObjectMeta st).1.elems)
            [(admissionWebhookAnnotationStatusKey, "injected")]) with
        | none => simp
        | some err => simp

/-- On a request whose object decodes, the response of `mutate` carries a patch
exactly when `mutationRequired` is true, the fetch succeeded, `filterSidecar`
selected a non-empty sequence and `json.Marshal` returned no error on the patch;
when the selection is empty the response is allowed without patch. -/
theorem mutate_patch_iff_marshal (env : Env) (ar : AdmissionReview)
    (req : AdmissionRequest) (pod : Pod) (hreq : ar.Request = some req)
    (hpod : env.unmarshalPod req.Raw = .ok pod) :
    ∃ r, (mutate env ar).response = some r ∧
      (r.Patch.isSome = true ↔
        (mutationRequired env.toLower ignoredNamespaces pod.ObjectMeta = true ∧
          ∃ st, getSidecarFromCrd env.httpGet env.unmarshalTemplate = .ok st ∧
            (filterSidecar pod.ObjectMeta st).1.elems ≠ [] ∧
            env.marshalError (createPatchOps pod
              (env.defaulter (filterSidecar pod.ObjectMeta st).1.elems)
              [(admissionWebhookAnnotationStatusKey, "injected")]) = none)) ∧
      (∀ st err, mutationRequired env.toLower ignoredNamespaces pod.ObjectMeta = true →
        getSidecarFromCrd env.httpGet env.unmarshalTemplate = .ok st →
        (filterSidecar pod.ObjectMeta st).1.elems ≠ [] →
        env.marshalError (createPatchOps pod
          (env.defaulter (filterSidecar pod.ObjectMeta st).1.elems)
          [(admissionWebhookAnnotationStatusKey, "injected")]) = some err →
        r = { Allowed := false, Result := some { Message := err }, Patch := none }) ∧
      (∀ st, getSidecarFromCrd env.httpGet env.unmarshalTemplate = .ok st →
        (filterSidecar pod.ObjectMeta st).1.elems = [] →
        r = { Allowed := true, Patch := none }) := by
  refine ⟨_, mutate_response_decoded env ar req pod hreq hpod, ?_, ?_, ?_⟩
  · cases hm : mutationRequired env.toLower ignoredNamespaces pod.ObjectMeta with
    | false => simp
    | true =>
      cases hf : getSidecarFromCrd env.httpGet env.unmarshalTemplate with
      | error e => simp
      | ok st =>
        by_cases hs : (filterSidecar pod.ObjectMeta st).1.elems = []
        · simp [hs]
        · cases hme : env.marshalError (createPatchOps pod
              (env.defaulter (filterSidecar pod.ObjectMeta st).1.elems)
              [(admissionWebhookAnnotationStatusKey, "injected")]) with
          | none => simp [hs, hme]
          | some err => simp [hs, hme]
  · intro st err hm hf hs hme
    simp [hm, hf, hs, hme]
  · intro st hf hs
    cases hm : mutationRequired env.toLower ignoredNamespaces pod.ObjectMeta with
    | false => simp
    | true => simp [hf, hs]

/-- C9: on a request whose object decodes, for every outcome of the template
fetch, the response of `mutate` carries a patch exactly when `mutationRequired` is
true, the fetch succeeded and `filterSidecar` selected a non-empty container
sequence; when the selection is empty the response is allowed without patch.
`json.Marshal` returns no error on a patch: its values are containers decoded
from JSON, string maps and strings. -/
theorem mutate_patch_iff_selection (env : Env) (ar : AdmissionReview)
    (req : AdmissionRequest) (pod : Pod) (hreq : ar.Request = some req)
    (hpod : env.unmarshalPod req.Raw = .ok pod)
    (hmarshal : ∀ ops, env.marshalError ops = none) :
    ∃ r, (mutate env ar).response = some r ∧
      (r.Patch.isSome = true ↔
        (mutationRequired env.toLower ignoredNamespaces pod.ObjectMeta = true ∧
          ∃ st, getSidecarFromCrd env.httpGet env.unmarshalTemplate = .ok st ∧
            (filterSidecar pod.ObjectMeta st).1.elems ≠ [])) ∧
      (∀ st, getSidecarFromCrd env.httpGet env.unmarshalTemplate = .ok st →
        (filterSidecar pod.ObjectMeta st).1.elems = [] →
        r = { UID := "", Allowed := true, Result := none, Patch := none,
              PatchType := none }) := by
  obtain ⟨r, hr, hiff, -, hempty⟩ := mutate_patch_iff_marshal env ar req pod hreq hpod
  refine ⟨r, hr, ?_, hempty⟩
  rw [hiff]
  constructor
  · rintro ⟨hm, st, hf, hs, -⟩
    exact ⟨hm, st, hf, hs⟩
  · rintro ⟨hm, st, hf, hs⟩
    exact ⟨hm, st, hf, hs, hmarshal _⟩

theorem mutate_patch_iff_selection_witness :
    (∃ r, (mutate (Env.simple (.ok scenarioPod) (.body "items") (.ok scenarioTemplate))
        scenarioReview).response = some r ∧ r.Patch.isSome = true) ∧
    (mutationRequired asciiToLower ignoredNamespaces scenarioPod.ObjectMeta = true ∧
      ∃ st, getSidecarFromCrd (.body "items") (fun _ => .ok scenarioTemplate) = .ok st ∧
        (filterSidecar scenarioPod.ObjectMeta st).1.elems ≠ []) := by
  obtain ⟨r, hr, hiff, -⟩ :=
    mutate_patch_iff_selection
      (Env.simple (.ok scenarioPod) (.body "items") (.ok scenarioTemplate))
      scenarioReview { UID := "uid-1", Raw := "pod-json" } scenarioPod rfl rfl
      (fun _ => rfl)
  have hrhs : mutationRequired asciiToLower ignoredNamespaces scenarioPod.ObjectMeta = true ∧
      ∃ st, getSidecarFromCrd (.body "items") (fun _ => .ok scenarioTemplate) = .ok st ∧
        (filterSidecar scenarioPod.ObjectMeta st).1.elems ≠ [] :=
    ⟨by decide, scenarioTemplate, rfl, by decide⟩
  exact ⟨⟨r, hr, hiff.2 hrhs⟩, hrhs⟩

/-- A fetch fails exactly on a transport failure, a failed read of the body, or
a body that does not decode. -/
theorem getSidecarFromCrd_error_iff (get : HttpGet)
    (unmarshal : String → Except String SidecarTemplate) (err : String) :
    getSidecarFromCrd get unmarshal = .error err ↔
      (get = .getFailed err ∨ get = .readFailed err ∨
        ∃ bytes, get = .body bytes ∧ unmarshal bytes = .error err) := by
  cases get with
  | getFailed e => simp [getSidecarFromCrd]
  | readFailed e => simp [getSidecarFromCrd]
  | body bytes =>
    cases hu : unmarshal bytes with
    | error e => simp [getSidecarFromCrd, hu]
    | ok st => simp [getSidecarFromCrd, hu]

/-- C10: fail-open.  On a request whose object decodes and for which mutation is
required, when `getSidecarFromCrd` fails with any error, `mutate` returns the
response with allowed true and no patch, no patch type and no result. -/
theorem mutate_fetch_error (env : Env) (ar : AdmissionReview)
    (req : AdmissionRequest) (pod : Pod) (err : String)
    (hreq : ar.Request = some req) (hpod : env.unmarshalPod req.Raw = .ok pod)
    (hm : mutationRequired env.toLower ignoredNamespaces pod.ObjectMeta = true)
    (hf : getSidecarFromCrd env.httpGet env.unmarshalTemplate = .error err) :
    (mutate env ar).response =
      some { UID := "", Allowed := true, Result := none, Patch := none,
             PatchType := none } := by
  rw [mutate_response_decoded env ar req pod hreq hpod]
  simp [hm, hf]

theorem mutate_fetch_error_witness :
    (mutate (Env.simple (.ok scenarioPod) (.getFailed "connection refused")
        (.ok scenarioTemplate)) scenarioReview).response =
      some { UID := "", Allowed := true, Result := none, Patch := none,
             PatchType := none } ∧
    (mutate (Env.simple (.ok scenarioPod) (.body "not json")
        (.error "invalid character")) scenarioReview).response =
      some { UID := "", Allowed := true, Result := none, Patch := none,
             PatchType := none } :=
  ⟨mutate_fetch_error _ scenarioReview { UID := "uid-1", Raw := "pod-json" } scenarioPod
      "connection refused" rfl rfl (by decide) rfl,
   mutate_fetch_error _ scenarioReview { UID := "uid-1", Raw := "pod-json" } scenarioPod
      "invalid character" rfl rfl (by decide) rfl⟩

/-- C11: eligibility short-circuits before the fetch.  On a request whose object
decodes and for which `mutationRequired` is false, `mutate` returns the response
with allowed true and no patch, the only repository function it calls is
`mutationRequired` (the template source is not queried), and the run is the same
whatever the fetch would have produced. -/
theorem mutate_not_required (env : Env) (ar : AdmissionReview)
    (req : AdmissionRequest) (pod : Pod) (hreq : ar.Request = some req)
    (hpod : env.unmarshalPod req.Raw = .ok pod)
    (hm : mutationRequired env.toLower ignoredNamespaces pod.ObjectMeta = false) :
    mutate env ar =
      { calls := [.mutationRequired],
        response := some { UID := "", Allowed := true, Result := none, Patch := none,
                           PatchType := none } } ∧
    Call.getSidecarFromCrd ∉ (mutate env ar).calls ∧
    (∀ (get : HttpGet) (unmarshal : String → Except String SidecarTemplate),
      mutate { env with httpGet := get, unmarshalTemplate := unmarshal } ar =
        mutate env ar) := by
  have h : ∀ (get : HttpGet) (unmarshal : String → Except String SidecarTemplate),
      mutate { env with httpGet := get, unmarshalTemplate := unmarshal } ar =
        { calls := [.mutationRequired], response := some { Allowed := true } } := by
    intro get unmarshal
    unfold mutate
    simp [hreq, hpod, hm]
  have h0 : mutate env ar =
      { calls := [.mutationRequired], response := some { Allowed := true } } := by
    unfold mutate
    simp [hreq, hpod, hm]
  refine ⟨h0, ?_, fun get unmarshal => (h get unmarshal).trans h0.symm⟩
  rw [h0]
  decide

theorem mutate_not_required_witness :
    mutate (Env.simple (.ok scenarioPodInjected) (.getFailed "connection refused")
        (.error "unused")) scenarioReview =
      { calls := [.mutationRequired],
        response := some { UID := "", Allowed := true, Result := none, Patch := none,
                           PatchType := none } } ∧
    mutate (Env.simple (.ok scenarioPodInjected) (.body "items")
        (.ok scenarioTemplate)) scenarioReview =
      mutate (Env.simple (.ok scenarioPodInjected) (.getFailed "connection refused")
        (.error "unused")) scenarioReview :=
  ⟨(mutate_not_required
      (Env.simple (.ok scenarioPodInjected) (.getFailed "connection refused")
        (.error "unused"))
      scenarioReview { UID := "uid-1", Raw := "pod-json" } scenarioPodInjected rfl rfl
      (by decide)).1,
   (mutate_not_required
      (Env.simple (.ok scenarioPodInjected) (.getFailed "connection refused")
        (.error "unused"))
      scenarioReview { UID := "uid-1", Raw := "pod-json" } scenarioPodInjected rfl rfl
      (by decide)).2.2 (.body "items") (fun _ => .ok scenarioTemplate)⟩

/-- C14: when the raw object of the request fails to deserialize with error `e`,
`mutate` returns the response whose result message is `e`, with allowed false and
no patch, and calls no repository function: neither the eligibility check nor the
template fetch is performed. -/
theorem mutate_object_decode_error (env : Env) (ar : AdmissionReview)
    (req : AdmissionRequest) (e : String) (hreq : ar.Request = some req)
    (hpod : env.unmarshalPod req.Raw = .error e) :
    mutate env ar =
      { calls := [],
        response := some { UID := "", Allowed := false,
                           Result := some { Message := e }, Patch := none,
                           PatchType := none } } ∧
    Call.mutationRequired ∉ (mutate env ar).calls ∧
    Call.getSidecarFromCrd ∉ (mutate env ar).calls ∧
    (∀ (lower : String → String) (get : HttpGet)
        (unmarshal : String → Except String SidecarTemplate),
      mutate { env with toLower := lower, httpGet := get,
                        unmarshalTemplate := unmarshal } ar = mutate env ar) := by
  have h : ∀ (lower : String → String) (get : HttpGet)
      (unmarshal : String → Except String SidecarTemplate),
      mutate { env with toLower := lower, httpGet := get,
                        unmarshalTemplate := unmarshal } ar =
        { calls := [], response := some { Result := some { Message := e } } } := by
    intro lower get unmarshal
    unfold mutate
    simp [hreq, hpod]
  have h0 : mutate env ar =
      { calls := [], response := some { Result := some { Message := e } } } := by
    unfold mutate
    simp [hreq, hpod]
  refine ⟨h0, ?_, ?_, fun lower get unmarshal => (h lower get unmarshal).trans h0.symm⟩
  · rw [h0]; simp
  · rw [h0]; simp

theorem mutate_object_decode_error_witness :
    mutate (Env.simple (.error "unexpected end of JSON input") (.body "items")
        (.ok scenarioTemplate)) scenarioReview =
      { calls := [],
        response := some { UID := "", Allowed := false,
                           Result := some { Message := "unexpected end of JSON input" },
                           Patch := none, PatchType := none } } :=
  (mutate_object_decode_error
    (Env.simple (.error "unexpected end of JSON input") (.body "items")
      (.ok scenarioTemplate))
    scenarioReview { UID := "uid-1", Raw := "pod-json" } "unexpected end of JSON input"
    rfl rfl).1

/-- Every response `mutate` returns has one of three shapes: the error response,
the allowed response without patch, or the allowed response with a patch and the
JSONPatch marker. -/
theorem mutate_response_shape (env : Env) (ar : AdmissionReview)
    (r : AdmissionResponse) (h : (mutate env ar).response = some r) :
    (∃ e, r = { Result := some { Message := e } }) ∨
    r = { Allowed := true } ∨
    (∃ ops, r = { Allowed := true, Patch := some ops,
                  PatchType := some PatchTypeJSONPatch }) := by
  cases hreq : ar.Request with
  | none =>
    unfold mutate at h
    simp [hreq] at h
  | some req =>
    cases hpod : env.unmarshalPod req.Raw with
    | error e =>
      unfold mutate at h
      simp only [hreq, hpod, Option.some.injEq] at h
      exact Or.inl ⟨e, h.symm⟩
    | ok pod =>
      rw [mutate_response_decoded env ar req pod hreq hpod, Option.some.injEq] at h
      subst h
      split
      · exact Or.inr (Or.inl rfl)
      · split
        · exact Or.inr (Or.inl rfl)
        · split
          · exact Or.inr (Or.inl rfl)
          · split
            · exact Or.inl ⟨_, rfl⟩
            · exact Or.inr (Or.inr ⟨_, rfl⟩)

/-- C15: every response returned by `mutate` satisfies: if a patch is present
then allowed is true, the patch type is the JSONPatch marker and no result message
is set; if a result message is set then allowed is false and no patch is
present. -/
theorem mutate_response_invariant (env : Env) (ar : AdmissionReview)
    (r : AdmissionResponse) (h : (mutate env ar).response = some r) :
    (r.Patch.isSome = true →
      r.Allowed = true ∧ r.PatchType = some PatchTypeJSONPatch ∧ r.Result = none) ∧
    (r.Result.isSome = true → r.Allowed = false ∧ r.Patch = none) := by
  rcases mutate_response_shape env ar r h with ⟨e, rfl⟩ | rfl | ⟨ops, rfl⟩ <;> simp

theorem mutate_response_invariant_witness :
    ∃ r, (mutate (Env.simple (.ok scenarioPod) (.body "items") (.ok scenarioTemplate))
        scenarioReview).response = some r ∧
      r.Patch.isSome = true ∧
      r.Allowed = true ∧ r.PatchType = some PatchTypeJSONPatch ∧ r.Result = none :=
  have h : (mutate (Env.simple (.ok scenarioPod) (.body "items") (.ok scenarioTemplate))
      scenarioReview).response =
      some { Allowed := true,
             Patch := some (createPatchOps scenarioPod [⟨"a", "img-a"⟩, ⟨"b", "img-b"⟩]
               [(admissionWebhookAnnotationStatusKey, "injected")]),
             PatchType := some PatchTypeJSONPatch } := by decide
  ⟨_, h, rfl, (mutate_response_invariant _ _ _ h).1 rfl⟩

/-! ### HTTP handler -/

/-- With a request in the envelope `mutate` returns a response. -/
theorem mutate_response_of_request (env : Env) (ar : AdmissionReview)
    (req : AdmissionRequest) (hreq : ar.Request = some req) :
    ∃ r, (mutate env ar).response = some r := by
  cases hpod : env.unmarshalPod req.Raw with
  | error e =>
    refine ⟨{ Result := some { Message := e } }, ?_⟩
    unfold mutate
    simp [hreq, hpod]
  | ok pod => exact ⟨_, mutate_response_decoded env ar req pod hreq hpod⟩

/-- With a request in the envelope `mutate` ends in exactly one of the three
terminal outcomes: an error response, an allowed response without patch, or an
allowed response with patch. -/
theorem mutate_outcome_of_request (env : Env) (ar : AdmissionReview)
    (req : AdmissionRequest) (hreq : ar.Request = some req) :
    ∃ r, (mutate env ar).response = some r ∧
      ((r.Result.isSome = true ∧ r.Allowed = false ∧ r.Patch = none) ∨
       (r.Result = none ∧ r.Allowed = true ∧ r.Patch = none) ∨
       (r.Result = none ∧ r.Allowed = true ∧ r.Patch.isSome = true)) ∧
      ¬ ((r.Result.isSome = true ∧ r.Allowed = false ∧ r.Patch = none) ∧
         (r.Result = none ∧ r.Allowed = true ∧ r.Patch = none)) ∧
      ¬ ((r.Result.isSome = true ∧ r.Allowed = false ∧ r.Patch = none) ∧
         (r.Result = none ∧ r.Allowed = true ∧ r.Patch.isSome = true)) ∧
      ¬ ((r.Result = none ∧ r.Allowed = true ∧ r.Patch = none) ∧
         (r.Result = none ∧ r.Allowed = true ∧ r.Patch.isSome = true)) := by
  obtain ⟨r, hr⟩ := mutate_response_of_request env ar req hreq
  refine ⟨r, hr, ?_⟩
  rcases mutate_response_shape env ar r hr with ⟨e, rfl⟩ | rfl | ⟨ops, rfl⟩ <;> simp

/-- C12: evaluation of the handler on an envelope that decodes without a
request.  `mutate` dereferences `ar.Request` before any check, so the run ends in
a fault: `mutate` returns no response and `serve` makes no call on the response
writer, although `serve` itself tests `ar.Request != nil` further down. -/
theorem serve_nil_request_fault :
    (ServeEnv.simple (Env.simple (.ok scenarioPod) (.body "items")
        (.ok scenarioTemplate)) { Request := none }).decode "review-json" =
      ({ Request := none }, none) ∧
    (mutate (Env.simple (.ok scenarioPod) (.body "items") (.ok scenarioTemplate))
      { Request := none }).response = none ∧
    serve
      (ServeEnv.simple (Env.simple (.ok scenarioPod) (.body "items")
        (.ok scenarioTemplate)) { Request := none })
      { Body := .data "review-json", ContentType := "application/json" } = none := by
  decide

/-- C13: for an envelope that decodes to a review with a request, the response
`serve` encodes is the response of `mutate` with `UID` set to the `UID` of the
request, whichever outcome `mutate` produced; when encoding succeeds it is the
first thing written. -/
theorem serve_response_uid (env : ServeEnv) (body : String) (ar : AdmissionReview)
    (req : AdmissionRequest) (hdec : env.decode body = (ar, none))
    (hreq : ar.Request = some req) :
    ∃ r, (mutate env.mutateEnv ar).response = some r ∧
      serveReview env body =
        some { Request := none, Response := some { r with UID := req.UID } } ∧
      (∃ review response, serveReview env body = some review ∧
        review.Response = some response ∧ response.UID = req.UID) ∧
      (∀ hr : HttpRequest, hr.Body = .data body → body.length ≠ 0 →
        hr.ContentType = "application/json" →
        env.marshalReviewError
          { Request := none, Response := some { r with UID := req.UID } } = none →
        ∃ rest, serve env hr =
          some (.write (some { Request := none,
                               Response := some { r with UID := req.UID } }) :: rest)) := by
  obtain ⟨r, hr⟩ := mutate_response_of_request env.mutateEnv ar req hreq
  have hrev : serveReview env body =
      some { Request := none, Response := some { r with UID := req.UID } } := by
    unfold serveReview
    simp [hdec, hr, hreq]
  refine ⟨r, hr, hrev, ⟨_, _, hrev, rfl, rfl⟩, ?_⟩
  intro q hbody hlen hct hm
  unfold serve
  simp only [hbody, hlen, hct, hrev, hm, if_false, ne_eq, not_true_eq_false]
  cases env.writeError with
  | none => exact ⟨[], rfl⟩
  | some err => exact ⟨_, rfl⟩

theorem serve_response_uid_witness :
    ∃ r, (mutate (Env.simple (.ok scenarioPod) (.body "items") (.ok scenarioTemplate))
        scenarioReview).response = some r ∧
      serveReview
        (ServeEnv.simple (Env.simple (.ok scenarioPod) (.body "items")
          (.ok scenarioTemplate)) scenarioReview) "review-json" =
        some { Request := none, Response := some { r with UID := "uid-1" } } := by
  obtain ⟨r, hr, hrev, -, -⟩ :=
    serve_response_uid
      (ServeEnv.simple (Env.simple (.ok scenarioPod) (.body "items")
        (.ok scenarioTemplate)) scenarioReview)
      "review-json" scenarioReview { UID := "uid-1", Raw := "pod-json" } rfl rfl
  exact ⟨r, hr, hrev⟩

/-! ### Applying the patch -/

theorem applyPatch_append (ops₁ ops₂ : List patchOperation) :
    ∀ pod : Pod, applyPatch pod (ops₁ ++ ops₂) =
      (applyPatch pod ops₁).bind (fun next => applyPatch next ops₂) := by
  induction ops₁ with
  | nil => intro pod; simp [applyPatch]
  | cons op rest ih =>
    intro pod
    simp only [List.cons_append, applyPatch]
    cases applyOperation pod op with
    | none => simp
    | some next => simpa using ih next

/-- An `add` at the base path of the containers sets the array. -/
theorem applyOperation_establish (pod : Pod) (cs : List Container) :
    applyOperation pod
        { Op := "add", Path := "/spec/containers", Value := .containers cs } =
      some { pod with Containers := cs } := by
  have hp : parsePointer "/spec/containers" = some ["spec", "containers"] := by decide
  simp [applyOperation, hp]

/-- An `add` at the append path of the containers appends the container. -/
theorem applyOperation_append (pod : Pod) (c : Container) :
    applyOperation pod
        { Op := "add", Path := "/spec/containers" ++ "/-", Value := .container c } =
      some { pod with Containers := pod.Containers ++ [c] } := by
  have hp : parsePointer "/spec/containers/-" =
      some ["spec", "containers", "-"] := by decide
  have hpath : "/spec/containers" ++ "/-" = "/spec/containers/-" := by decide
  simp [applyOperation, hpath, hp]

/-- A run of append operations appends the containers in order. -/
theorem applyPatch_appends (added : List Container) :
    ∀ pod : Pod,
      applyPatch pod (added.map (fun c =>
        { Op := "add", Path := "/spec/containers" ++ "/-", Value := .container c })) =
      some { pod with Containers := pod.Containers ++ added } := by
  induction added with
  | nil => intro pod; simp [applyPatch]
  | cons a rest ih =>
    intro pod
    simp only [List.map_cons, applyPatch, applyOperation_append, ih]
    simp

/-- Applying the operations of `addContainer` for the containers of a pod to that
pod appends the added containers and changes nothing else. -/
theorem applyPatch_addContainer (pod : Pod) (added : List Container) :
    applyPatch pod (addContainer pod.Containers added "/spec/containers") =
      some { pod with Containers := pod.Containers ++ added } := by
  obtain ⟨objectMeta, target⟩ := pod
  cases target with
  | cons t ts =>
    rw [addContainer_cons_target (t :: ts) added "/spec/containers" (by simp),
      applyPatch_appends]
  | nil =>
    cases added with
    | nil => simp [addContainer, addContainerLoop, applyPatch]
    | cons a rest =>
      rw [addContainer_nil_target]
      simp only [applyPatch, applyOperation_establish, applyPatch_appends]
      simp

/-- C17: applying the operations of `addContainer target added "/spec/containers"`
in order to a pod whose containers are `target` (an `add` at the base path sets
the array, an `add` at the append path appends) yields exactly `target ++ added`:
every existing container keeps its position and the added ones follow in
order; nothing else in the pod changes. -/
theorem addContainer_apply (pod : Pod) (added : List Container) :
    applyPatch pod (addContainer pod.Containers added "/spec/containers") =
      some { pod with Containers := pod.Containers ++ added } ∧
    (applyPatch pod (addContainer pod.Containers added "/spec/containers")).map
      (fun patched => patched.Containers) = some (pod.Containers ++ added) ∧
    (∀ (i : Nat) (c : Container), pod.Containers[i]? = some c →
      ∃ patched,
        applyPatch pod (addContainer pod.Containers added "/spec/containers") =
          some patched ∧ patched.Containers[i]? = some c) := by
  have h := applyPatch_addContainer pod added
  refine ⟨h, by simp [h], ?_⟩
  intro i c hc
  refine ⟨_, h, ?_⟩
  have hi : i < pod.Containers.length := by
    rcases Nat.lt_or_ge i pod.Containers.length with hlt | hge
    · exact hlt
    · rw [List.getElem?_eq_none hge] at hc
      exact absurd hc (by simp)
  simp only [List.getElem?_append_left hi, hc]

/-- Applying container operations to concrete pods: into no container and next
to an existing one. -/
theorem addContainer_apply_example :
    (applyPatch scenarioPod
      (addContainer [] [⟨"a", "img-a"⟩, ⟨"b", "img-b"⟩] "/spec/containers")).map
      (fun patched => patched.Containers) = some [⟨"a", "img-a"⟩, ⟨"b", "img-b"⟩] ∧
    (applyPatch scenarioPodInjected
      (addContainer [⟨"app", "img"⟩] [⟨"a", "img-a"⟩] "/spec/containers")).map
      (fun patched => patched.Containers) = some [⟨"app", "img"⟩, ⟨"a", "img-a"⟩] := by
  decide

/-- C19: `filterSidecar` distributes over concatenation of template collections,
and selecting from the empty collection yields the empty sequence. -/
theorem filterSidecar_append (metadata : ObjectMeta) (A B : List SidecarItem) :
    (filterSidecar metadata { Items := A ++ B }).1.elems =
      (filterSidecar metadata { Items := A }).1.elems ++
        (filterSidecar metadata { Items := B }).1.elems ∧
    (filterSidecar metadata { Items := [] }).1.elems = [] ∧
    filterSidecar metadata { Items := [] } = (none, none) := by
  have hnone : Slice.elems (none : Slice Container) = [] := rfl
  refine ⟨?_, rfl, rfl⟩
  simp only [filterSidecar, filterSidecarLoop_elems, hnone, List.nil_append,
    List.filter_append, List.flatMap_append]

/-- When the pod has no non-empty status annotation, the patch built by
`createPatch` applies: the sidecars are appended and the annotations become the
single status entry. -/
theorem applyPatch_createPatchOps_add (pod : Pod) (sidecars : List Container)
    (h : pod.ObjectMeta.Annotations = none ∨
      pod.ObjectMeta.Annotations.index admissionWebhookAnnotationStatusKey = "") :
    applyPatch pod (createPatchOps pod sidecars
        [(admissionWebhookAnnotationStatusKey, "injected")]) =
      some { ObjectMeta :=
               { pod.ObjectMeta with
                 Annotations := some [(admissionWebhookAnnotationStatusKey, "injected")] },
             Containers := pod.Containers ++ sidecars } := by
  have hp : parsePointer "/metadata/annotations" = some ["metadata", "annotations"] := by
    decide
  rw [createPatchOps_status, if_pos h, applyPatch_append, applyPatch_addContainer]
  simp [applyPatch, applyOperation, hp]

/-- A pod whose annotations are the single status entry `injected` is not
eligible again, for a lower-casing that leaves `injected` as it is. -/
theorem mutationRequired_after_patch (toLower : String → String)
    (hlower : toLower "injected" = "injected") (ignoredList : List String)
    (objectMeta : ObjectMeta) :
    mutationRequired toLower ignoredList
      { objectMeta with
        Annotations := some [(admissionWebhookAnnotationStatusKey, "injected")] } = false := by
  cases hreq : mutationRequired toLower ignoredList
      { objectMeta with
        Annotations := some [(admissionWebhookAnnotationStatusKey, "injected")] }
  · rfl
  · have h := ((mutationRequired_eq_true toLower ignoredList _).1 hreq).2.1
    exact absurd hlower (by simpa [StringMap.index] using h)

/-- C16: evaluation of `mutate` and of the patch it returns on an eligible pod
that carries the status annotation `failed`.  The annotation operation is a
`replace` whose path holds the status key unescaped; the key contains a slash, so
the pointer has four reference tokens and addresses a location below the
annotation `sidecar-injector-webhook.morven.me`, which does not exist.  The patch
does not apply: there is no patched object carrying the status `injected`. -/
theorem mutate_patch_replace_not_applied :
    mutationRequired asciiToLower ignoredNamespaces
      scenarioPodFailedStatus.ObjectMeta = true ∧
    (mutate (Env.simple (.ok scenarioPodFailedStatus) (.body "items")
        (.ok scenarioTemplate)) scenarioReview).response =
      some { Allowed := true,
             Patch := some
               [{ Op := "add", Path := "/spec/containers/-",
                  Value := .container ⟨"a", "img-a"⟩ },
                { Op := "add", Path := "/spec/containers/-",
                  Value := .container ⟨"b", "img-b"⟩ },
                { Op := "replace",
                  Path := "/metadata/annotations/sidecar-injector-webhook.morven.me/status",
                  Value := .string "injected" }],
             PatchType := some PatchTypeJSONPatch } ∧
    parsePointer "/metadata/annotations/sidecar-injector-webhook.morven.me/status" =
      some ["metadata", "annotations", "sidecar-injector-webhook.morven.me", "status"] ∧
    applyPatch scenarioPodFailedStatus
      [{ Op := "add", Path := "/spec/containers/-",
         Value := .container ⟨"a", "img-a"⟩ },
       { Op := "add", Path := "/spec/containers/-",
         Value := .container ⟨"b", "img-b"⟩ },
       { Op := "replace",
         Path := "/metadata/annotations/sidecar-injector-webhook.morven.me/status",
         Value := .string "injected" }] = none := by
  decide

/-- C18: evaluation of `mutate` and of the patch it returns on the scenario pod,
whose only annotation is the inject annotation `true`.  The annotation operation
is an `add` of a one-entry map at `/metadata/annotations`, which sets the whole
annotations object: after the patch the pod carries the status annotation only and
the inject annotation is gone. -/
theorem mutate_patch_drops_annotations :
    scenarioPod.ObjectMeta.Annotations.lookup admissionWebhookAnnotationInjectKey =
      some "true" ∧
    (mutate (Env.simple (.ok scenarioPod) (.body "items") (.ok scenarioTemplate))
        scenarioReview).response =
      some { Allowed := true,
             Patch := some
               [{ Op := "add", Path := "/spec/containers",
                  Value := .containers [⟨"a", "img-a"⟩] },
                { Op := "add", Path := "/spec/containers/-",
                  Value := .container ⟨"b", "img-b"⟩ },
                { Op := "add", Path := "/metadata/annotations",
                  Value := .stringMap
                    [("sidecar-injector-webhook.morven.me/status", "injected")] }],
             PatchType := some PatchTypeJSONPatch } ∧
    applyPatch scenarioPod
      [{ Op := "add", Path := "/spec/containers",
         Value := .containers [⟨"a", "img-a"⟩] },
       { Op := "add", Path := "/spec/containers/-",
         Value := .container ⟨"b", "img-b"⟩ },
       { Op := "add", Path := "/metadata/annotations",
         Value := .stringMap
           [("sidecar-injector-webhook.morven.me/status", "injected")] }] =
      some { ObjectMeta :=
               { Name := "p", Namespace := "default",
                 Labels := some [("injector", "logging")],
                 Annotations :=
                   some [("sidecar-injector-webhook.morven.me/status", "injected")] },
             Containers := [⟨"a", "img-a"⟩, ⟨"b", "img-b"⟩] } ∧
    StringMap.lookup
      (some [("sidecar-injector-webhook.morven.me/status", "injected")])
      admissionWebhookAnnotationInjectKey = none := by
  decide

end Webhook
